import Mathlib

/-!
Verification development for `aten/src/ATen/native/vulkan/VulkanOps.cpp`.

The file shallowly embeds the host-side logic of the Vulkan operator
dispatch layer: index arithmetic of the convolution-weight repacking pass,
the prepacked-weight image-size computation, the shape checks of the
elementwise operators, the buffer-copy semantics of `reshape_copy` and
`cat`, the descriptor-binding orders, and the command-recording sequences
(barriers and dispatches) of each operator entry point.  Device execution
(the shader arithmetic itself) is out of scope; what is modelled is the
host-visible contract: which indices are read and written, which checks
fail, what gets recorded and bound in which order.
-/

namespace VulkanOps

/-- `UP_DIV(x, y) = ((x) + (y) - 1) / (y)`.  Modelled from the spec: the macro
lives in `VulkanCommon.h`, which is not among the sources; the spec describes
the quantity as ceiling division (`ceil(channels/4)` for the channel-block
count), matching this standard macro. -/
def UP_DIV (x y : Nat) : Nat := (x + y - 1) / y

/-- `ALIGN_UP4(x) = ROUND_UP(x, 4) = UP_DIV(x, 4) * 4`, rounding `x` up to a
multiple of 4.  Modelled from the spec: the macro lives in `VulkanCommon.h`,
which is not among the sources.  Its round-up semantics is pinned by its uses
inside `VulkanOps.cpp` itself: `bufferFromOptionalHostData` requires
`sizeof(float) * OC <= sizeof(float) * ALIGN_UP4(OC)` and
`kernelNCHW_OCHW_repack_O4C4HWi4o4` sizes its scratch buffer as
`ALIGN_UP4(OC) * ALIGN_UP4(C) * KH * KW` floats while writing up to element
`UP_DIV(OC,4) * UP_DIV(C,4) * KH * KW * 16 - 1`. -/
def ALIGN_UP4 (x : Nat) : Nat := UP_DIV x 4 * 4

/-- Row-major linear index of entry `(oc, ic, ky, kx)` of a dense
`[OC, C, KH, KW]` weight buffer.  This is the order in which `ridx` walks the
source array `src` in `kernelNCHW_OCHW_repack_O4C4HWi4o4` (loops nested
`oc`, `ic`, `ky`, `kx`, each over its full extent). -/
def denseIdx (C KH KW oc ic ky kx : Nat) : Nat :=
  ((oc * C + ic) * KH + ky) * KW + kx

/-- Destination index of the write performed for `(oc, ic, ky, kx)` by
`kernelNCHW_OCHW_repack_O4C4HWi4o4`, transcribing the pointer arithmetic of
the source:
`dst = (oc/4) * (KW*KH*C_4*16) + (ic/4) * (KW*KH*16) + ky * (KW*16) + kx*16`
and then lane `4*(ic%4) + (oc%4)` inside that 16-float block, with
`C_4 = UP_DIV(C, 4)`. -/
def repackDstIdx (C KH KW oc ic ky kx : Nat) : Nat :=
  oc / 4 * (KW * KH * UP_DIV C 4 * 16) + ic / 4 * (KW * KH * 16)
    + ky * (KW * 16) + kx * 16 + (4 * (ic % 4) + oc % 4)

/-- The sequence of `(destination, source)` index pairs written by the nested
loops of `kernelNCHW_OCHW_repack_O4C4HWi4o4`, in program order. -/
def repackWrites (OC C KH KW : Nat) : List (Nat × Nat) :=
  (List.range OC).flatMap fun oc =>
    (List.range C).flatMap fun ic =>
      (List.range KH).flatMap fun ky =>
        (List.range KW).map fun kx =>
          (repackDstIdx C KH KW oc ic ky kx, denseIdx C KH KW oc ic ky kx)

/-- The scratch buffer produced by `kernelNCHW_OCHW_repack_O4C4HWi4o4`, as a
function from element index to value: the buffer is `memset` to zero and then
each `(dst, src)` pair of `repackWrites` stores `weights src` at `dst`, in
program order (a later write to the same index would win, as in the source).
Values are modelled as integers: the pass only permutes and zero-fills, it
performs no floating-point arithmetic. -/
def kernelNCHW_OCHW_repack_O4C4HWi4o4
    (weights : Nat → Int) (OC C KH KW : Nat) : Nat → Int :=
  fun j =>
    (repackWrites OC C KH KW).foldl
      (fun acc p => if p.1 = j then weights p.2 else acc) 0

/-- Value at `(oc, ic, ky, kx)` recovered from a repacked buffer by the
inverse index arithmetic (read back from the block/lane position the repack
pass writes). -/
def unpackO4C4HWi4o4 (buf : Nat → Int) (C KH KW oc ic ky kx : Nat) : Int :=
  buf (repackDstIdx C KH KW oc ic ky kx)

/-- Whole dense `[OC, C, KH, KW]` buffer recovered from a repacked buffer:
entry `r` of the dense buffer is read back from the block/lane position that
the repack pass assigned to the coordinates `(oc, ic, ky, kx)` decoded from
`r`. -/
def unpackDense (buf : Nat → Int) (C KH KW : Nat) : Nat → Int :=
  fun r =>
    unpackO4C4HWi4o4 buf C KH KW
      (r / (KW * KH * C)) (r / (KW * KH) % C) (r / KW % KH) (r % KW)

section RepackLemmas

/-- Mixed-radix decomposition: if `r < m` then `m * q + r` splits back into
`q` and `r`. -/
lemma mulAddDecomp {m q r : Nat} (h : r < m) :
    (m * q + r) / m = q ∧ (m * q + r) % m = r := by
  have hm : 0 < m := Nat.pos_of_ne_zero (by rintro rfl; exact Nat.not_lt_zero r h)
  constructor
  · rw [Nat.mul_add_div hm, Nat.div_eq_of_lt h]
    omega
  · rw [Nat.mul_add_mod]
    exact Nat.mod_eq_of_lt h

/-- Splitting `m * a + l = m * b + r` with both remainders below `m`. -/
lemma mulAddInj {m a b l r : Nat} (hl : l < m) (hr : r < m)
    (h : m * a + l = m * b + r) : a = b ∧ l = r := by
  refine ⟨?_, ?_⟩
  · have h1 := (@mulAddDecomp m a l hl).1
    have h2 := (@mulAddDecomp m b r hr).1
    rw [← h1, h, h2]
  · have h1 := (@mulAddDecomp m a l hl).2
    have h2 := (@mulAddDecomp m b r hr).2
    rw [← h1, h, h2]

/-- A row-column pair below its extents linearizes below the product. -/
lemma rowColLt {a b p q : Nat} (ha : a < p) (hb : b < q) :
    a * q + b < q * p := by
  calc a * q + b < a * q + q := Nat.add_lt_add_left hb (a * q)
  _ = (a + 1) * q := by ring
  _ ≤ p * q := Nat.mul_le_mul_right q ha
  _ = q * p := Nat.mul_comm p q

/-- `a < b` forces the 4-block index of `a` below `UP_DIV b 4`. -/
lemma div4_lt_UP_DIV {a b : Nat} (h : a < b) : a / 4 < UP_DIV b 4 := by
  unfold UP_DIV
  omega

/-- Canonical mixed-radix form of `repackDstIdx`. -/
lemma repackDstIdx_normal (C KH KW oc ic ky kx : Nat) :
    repackDstIdx C KH KW oc ic ky kx =
      16 * (KW * KH * (UP_DIV C 4 * (oc / 4) + ic / 4) + (ky * KW + kx))
        + (4 * (ic % 4) + oc % 4) := by
  unfold repackDstIdx
  ring

/-- The destination index map of the repack pass is injective on in-range
coordinates. -/
lemma repackDstIdx_inj {C KH KW oc ic ky kx oc2 ic2 ky2 kx2 : Nat}
    (hic : ic < C) (hky : ky < KH) (hkx : kx < KW)
    (hic2 : ic2 < C) (hky2 : ky2 < KH) (hkx2 : kx2 < KW)
    (h : repackDstIdx C KH KW oc ic ky kx
      = repackDstIdx C KH KW oc2 ic2 ky2 kx2) :
    oc = oc2 ∧ ic = ic2 ∧ ky = ky2 ∧ kx = kx2 := by
  rw [repackDstIdx_normal, repackDstIdx_normal] at h
  have hlane : 4 * (ic % 4) + oc % 4 < 16 := by omega
  have hlane2 : 4 * (ic2 % 4) + oc2 % 4 < 16 := by omega
  obtain ⟨hA, hl⟩ := mulAddInj hlane hlane2 h
  have hocm : oc % 4 = oc2 % 4 := by omega
  have hicm : ic % 4 = ic2 % 4 := by omega
  have hp : ky * KW + kx < KW * KH := rowColLt hky hkx
  have hp2 : ky2 * KW + kx2 < KW * KH := rowColLt hky2 hkx2
  obtain ⟨hX, hpq⟩ := mulAddInj hp hp2 hA
  have hpq2 : KW * ky + kx = KW * ky2 + kx2 := by
    rw [Nat.mul_comm KW ky, Nat.mul_comm KW ky2]
    exact hpq
  obtain ⟨hkyE, hkxE⟩ := mulAddInj hkx hkx2 hpq2
  have hi4 : ic / 4 < UP_DIV C 4 := div4_lt_UP_DIV hic
  have hi42 : ic2 / 4 < UP_DIV C 4 := div4_lt_UP_DIV hic2
  obtain ⟨hocd, hicd⟩ := mulAddInj hi4 hi42 hX
  refine ⟨by omega, by omega, hkyE, hkxE⟩

/-- In-range coordinates contribute their `(destination, source)` pair to the
write list. -/
lemma mem_repackWrites {OC C KH KW oc ic ky kx : Nat}
    (hoc : oc < OC) (hic : ic < C) (hky : ky < KH) (hkx : kx < KW) :
    (repackDstIdx C KH KW oc ic ky kx, denseIdx C KH KW oc ic ky kx)
      ∈ repackWrites OC C KH KW := by
  unfold repackWrites
  refine List.mem_flatMap.mpr ⟨oc, List.mem_range.mpr hoc, ?_⟩
  refine List.mem_flatMap.mpr ⟨ic, List.mem_range.mpr hic, ?_⟩
  refine List.mem_flatMap.mpr ⟨ky, List.mem_range.mpr hky, ?_⟩
  exact List.mem_map.mpr ⟨kx, List.mem_range.mpr hkx, rfl⟩

/-- Every pair on the write list comes from in-range coordinates. -/
lemma repackWrites_mem {OC C KH KW : Nat} {q : Nat × Nat}
    (h : q ∈ repackWrites OC C KH KW) :
    ∃ oc ic ky kx, oc < OC ∧ ic < C ∧ ky < KH ∧ kx < KW ∧
      q = (repackDstIdx C KH KW oc ic ky kx, denseIdx C KH KW oc ic ky kx) := by
  unfold repackWrites at h
  obtain ⟨oc, hoc, h⟩ := List.mem_flatMap.mp h
  obtain ⟨ic, hic, h⟩ := List.mem_flatMap.mp h
  obtain ⟨ky, hky, h⟩ := List.mem_flatMap.mp h
  obtain ⟨kx, hkx, h⟩ := List.mem_map.mp h
  exact ⟨oc, ic, ky, kx, List.mem_range.mp hoc, List.mem_range.mp hic,
    List.mem_range.mp hky, List.mem_range.mp hkx, h.symm⟩

/-- A fold of guarded writes over a list touching only other indices leaves
the accumulator unchanged. -/
lemma foldlWriteNone (w : Nat → Int) (j : Nat) :
    ∀ (L : List (Nat × Nat)) (a : Int), (∀ p ∈ L, p.1 ≠ j) →
      L.foldl (fun acc p => if p.1 = j then w p.2 else acc) a = a := by
  intro L
  induction L with
  | nil => intro a _; rfl
  | cons p L ih =>
    intro a hne
    have hp : p.1 ≠ j := hne p (List.mem_cons_self p L)
    simp only [List.foldl_cons, if_neg hp]
    exact ih a fun q hq => hne q (List.mem_cons_of_mem p hq)

/-- A fold of guarded writes over a list that stores `w s` at `j` (and never
stores anything else at `j`) produces `w s` at `j`. -/
lemma foldlWriteEq (w : Nat → Int) (j s : Nat) :
    ∀ (L : List (Nat × Nat)) (a : Int), (j, s) ∈ L →
      (∀ p ∈ L, p.1 = j → p.2 = s) →
      L.foldl (fun acc p => if p.1 = j then w p.2 else acc) a = w s := by
  intro L
  induction L with
  | nil =>
    intro a hmem _
    exact absurd hmem (List.not_mem_nil _)
  | cons p L ih =>
    intro a hmem huniq
    simp only [List.foldl_cons]
    by_cases hex : ∃ q ∈ L, q.1 = j
    · obtain ⟨q, hqL, hqj⟩ := hex
      have hq2 : q.2 = s := huniq q (List.mem_cons_of_mem p hqL) hqj
      have hmem2 : (j, s) ∈ L := by
        have hq : q = (j, s) := by
          cases q
          simp only [Prod.mk.injEq]
          exact ⟨hqj, hq2⟩
        rw [← hq]
        exact hqL
      exact ih _ hmem2 fun r hr hrj => huniq r (List.mem_cons_of_mem p hr) hrj
    · push_neg at hex
      have hpeq : p = (j, s) := by
        rcases List.mem_cons.mp hmem with h | h
        · exact h.symm
        · exact absurd rfl (hex (j, s) h)
      rw [hpeq]
      simp only [if_pos rfl]
      exact foldlWriteNone w j L (w s) fun q hq => hex q hq

/-- Decoding a dense row-major `[OC, C, KH, KW]` index recovers its
coordinates. -/
lemma denseIdx_decode {C KH KW oc ic ky kx : Nat}
    (hic : ic < C) (hky : ky < KH) (hkx : kx < KW) :
    denseIdx C KH KW oc ic ky kx % KW = kx
    ∧ denseIdx C KH KW oc ic ky kx / KW % KH = ky
    ∧ denseIdx C KH KW oc ic ky kx / (KW * KH) % C = ic
    ∧ denseIdx C KH KW oc ic ky kx / (KW * KH * C) = oc := by
  have h1 : denseIdx C KH KW oc ic ky kx
      = KW * ((oc * C + ic) * KH + ky) + kx := by
    unfold denseIdx; ring
  have hdiv1 := (@mulAddDecomp KW ((oc * C + ic) * KH + ky) kx hkx).1
  have hmod1 := (@mulAddDecomp KW ((oc * C + ic) * KH + ky) kx hkx).2
  have h2 : (oc * C + ic) * KH + ky = KH * (oc * C + ic) + ky := by ring
  have hdiv2 := (@mulAddDecomp KH (oc * C + ic) ky hky).1
  have hmod2 := (@mulAddDecomp KH (oc * C + ic) ky hky).2
  have h3 : oc * C + ic = C * oc + ic := by ring
  have hdiv3 := (@mulAddDecomp C oc ic hic).1
  have hmod3 := (@mulAddDecomp C oc ic hic).2
  have e1 : denseIdx C KH KW oc ic ky kx / (KW * KH)
      = denseIdx C KH KW oc ic ky kx / KW / KH :=
    (Nat.div_div_eq_div_mul _ KW KH).symm
  have e2 : denseIdx C KH KW oc ic ky kx / (KW * KH * C)
      = denseIdx C KH KW oc ic ky kx / (KW * KH) / C :=
    (Nat.div_div_eq_div_mul _ (KW * KH) C).symm
  have hq1 : denseIdx C KH KW oc ic ky kx / KW = (oc * C + ic) * KH + ky := by
    rw [h1, hdiv1]
  have hq2 : denseIdx C KH KW oc ic ky kx / (KW * KH) = oc * C + ic := by
    rw [e1, hq1, h2, hdiv2]
  refine ⟨?_, ?_, ?_, ?_⟩
  · rw [h1, hmod1]
  · rw [hq1, h2, hmod2]
  · rw [hq2, h3, hmod3]
  · rw [e2, hq2, h3, hdiv3]

end RepackLemmas

/-- C1: `kernelNCHW_OCHW_repack_O4C4HWi4o4` places the dense weight at
`(oc, ic, ky, kx)` into lane `4*(ic%4) + (oc%4)` of the 16-float block at
block coordinates `(ic/4, oc/4, ky*KW+kx)`; the destination buffer is
zero-initialized first, so every element not written by an in-range
coordinate (in particular every lane beyond the true `OC`/`C`) is zero; and
unpacking the produced layout by the inverse index arithmetic reproduces the
original dense buffer exactly. -/
theorem repack_O4C4HWi4o4_roundtrip
    (w : Nat → Int) (OC C KH KW oc ic ky kx : Nat)
    (hoc : oc < OC) (hic : ic < C) (hky : ky < KH) (hkx : kx < KW) :
    repackDstIdx C KH KW oc ic ky kx
        = 16 * ((oc / 4 * UP_DIV C 4 + ic / 4) * (KH * KW) + (ky * KW + kx))
            + (4 * (ic % 4) + oc % 4)
    ∧ kernelNCHW_OCHW_repack_O4C4HWi4o4 w OC C KH KW
        (repackDstIdx C KH KW oc ic ky kx) = w (denseIdx C KH KW oc ic ky kx)
    ∧ (∀ j, (∀ oc2 ic2 ky2 kx2, oc2 < OC → ic2 < C → ky2 < KH → kx2 < KW →
          repackDstIdx C KH KW oc2 ic2 ky2 kx2 ≠ j) →
        kernelNCHW_OCHW_repack_O4C4HWi4o4 w OC C KH KW j = 0)
    ∧ unpackDense (kernelNCHW_OCHW_repack_O4C4HWi4o4 w OC C KH KW) C KH KW
        (denseIdx C KH KW oc ic ky kx) = w (denseIdx C KH KW oc ic ky kx) := by
  have hblock : repackDstIdx C KH KW oc ic ky kx
      = 16 * ((oc / 4 * UP_DIV C 4 + ic / 4) * (KH * KW) + (ky * KW + kx))
          + (4 * (ic % 4) + oc % 4) := by
    rw [repackDstIdx_normal]
    ring
  have hmain : kernelNCHW_OCHW_repack_O4C4HWi4o4 w OC C KH KW
      (repackDstIdx C KH KW oc ic ky kx)
      = w (denseIdx C KH KW oc ic ky kx) := by
    unfold kernelNCHW_OCHW_repack_O4C4HWi4o4
    refine foldlWriteEq w _ _ _ 0 (mem_repackWrites hoc hic hky hkx) ?_
    intro p hp hpj
    obtain ⟨oc2, ic2, ky2, kx2, hoc2, hic2, hky2, hkx2, hpe⟩ :=
      repackWrites_mem hp
    rw [hpe] at hpj ⊢
    simp only at hpj ⊢
    obtain ⟨e1, e2, e3, e4⟩ := repackDstIdx_inj hic2 hky2 hkx2 hic hky hkx hpj
    rw [e1, e2, e3, e4]
  refine ⟨hblock, hmain, ?_, ?_⟩
  · intro j hj
    unfold kernelNCHW_OCHW_repack_O4C4HWi4o4
    refine foldlWriteNone w j _ 0 ?_
    intro p hp
    obtain ⟨oc2, ic2, ky2, kx2, hoc2, hic2, hky2, hkx2, hpe⟩ :=
      repackWrites_mem hp
    rw [hpe]
    exact hj oc2 ic2 ky2 kx2 hoc2 hic2 hky2 hkx2
  · obtain ⟨d1, d2, d3, d4⟩ := denseIdx_decode hic hky hkx
    unfold unpackDense unpackO4C4HWi4o4
    rw [d1, d2, d3, d4]
    exact hmain

/-- Witness for C1 at `OC = 2`, `C = 3`, `KH = 2`, `KW = 2`,
`(oc, ic, ky, kx) = (1, 2, 1, 0)`, `w n = n + 5`. -/
theorem repack_O4C4HWi4o4_roundtrip_witness :
    (1 < 2 ∧ 2 < 3 ∧ 1 < 2 ∧ 0 < 2)
    ∧ (repackDstIdx 3 2 2 1 2 1 0
        = 16 * ((1 / 4 * UP_DIV 3 4 + 2 / 4) * (2 * 2) + (1 * 2 + 0))
            + (4 * (2 % 4) + 1 % 4)
    ∧ kernelNCHW_OCHW_repack_O4C4HWi4o4 (fun n => (n : Int) + 5) 2 3 2 2
        (repackDstIdx 3 2 2 1 2 1 0) = ((denseIdx 3 2 2 1 2 1 0 : Nat) : Int) + 5
    ∧ (∀ j, (∀ oc2 ic2 ky2 kx2, oc2 < 2 → ic2 < 3 → ky2 < 2 → kx2 < 2 →
          repackDstIdx 3 2 2 oc2 ic2 ky2 kx2 ≠ j) →
        kernelNCHW_OCHW_repack_O4C4HWi4o4 (fun n => (n : Int) + 5) 2 3 2 2 j = 0)
    ∧ unpackDense (kernelNCHW_OCHW_repack_O4C4HWi4o4
          (fun n => (n : Int) + 5) 2 3 2 2) 3 2 2
        (denseIdx 3 2 2 1 2 1 0) = ((denseIdx 3 2 2 1 2 1 0 : Nat) : Int) + 5) :=
  ⟨by decide,
   repack_O4C4HWi4o4_roundtrip (fun n => (n : Int) + 5) 2 3 2 2 1 2 1 0
     (by decide) (by decide) (by decide) (by decide)⟩

/-! ## Prepacked-weight image sizes (conv2d_prepack_weights_image_sizes) -/

/-- Size triple returned by `conv2d_prepack_weights_image_sizes` (the source
returns an `ImageSizes` holding this same triple twice):
`{ALIGN_UP4(C), UP_DIV(OC, 4), KH * KW}`. -/
def conv2d_prepack_weights_image_sizes (OC C KH KW : Nat) : List Nat :=
  [ALIGN_UP4 C, UP_DIV OC 4, KH * KW]

/-- Size triple the spec's §6 contract claims for the prepacked-weight image:
`(ceil(C/4), ceil(OC/4), KH*KW)`.  Stated from the spec's words, to be
compared with the source's computation. -/
def specPrepackImageSizes (OC C KH KW : Nat) : List Nat :=
  [UP_DIV C 4, UP_DIV OC 4, KH * KW]

/-- The size check performed by `conv2d_prepack_weights_to_image`: the
pre-allocated image's sizes must equal the expected
`conv2d_prepack_weights_image_sizes(...).imageSize`, else the call fails the
internal assertion before recording anything. -/
def conv2d_prepack_weights_to_image_check
    (imageSizes : List Nat) (OC C KH KW : Nat) : Except String Unit :=
  if imageSizes = conv2d_prepack_weights_image_sizes OC C KH KW then .ok ()
  else .error "Out VImage sizes do not match expected"

/-! ## Command recording model

Commands recorded into an operator's command buffer between
`createCommandBuffer` and `endCommandBuffer`.  Resources are numbered by the
operator's tensor-argument position: `0` is the output, inputs follow. -/

/-- One recorded command. -/
inductive Cmd where
  | barrierGeneral (res : Nat)
  | barrierShaderRead (res : Nat)
  | barrierBuffer (res : Nat)
  | memoryBarrier
  | dispatch (x y z : Nat)
deriving DecidableEq, Repr

/-- Whether a command is a compute dispatch. -/
def Cmd.isDispatch : Cmd → Bool
  | .dispatch _ _ _ => true
  | _ => false

/-- Commands recorded before the first dispatch of the trace. -/
def cmdsBeforeDispatch (cmds : List Cmd) : List Cmd :=
  cmds.takeWhile fun c => ! c.isDispatch

/-- `true` iff the trace contains a dispatch and, before the first dispatch,
a general-access barrier on `out` and a shader-read barrier on every element
of `inputs`. -/
def barriersPrecedeDispatch (cmds : List Cmd) (out : Nat) (inputs : List Nat) :
    Bool :=
  cmds.any Cmd.isDispatch
    && (cmdsBeforeDispatch cmds).contains (Cmd.barrierGeneral out)
    && inputs.all fun i =>
        (cmdsBeforeDispatch cmds).contains (Cmd.barrierShaderRead i)

/-- `upsample_nearest2d` recording: input shader-read barrier, then the
dispatch over `(OW, OH, N*C)`.  No barrier on the output image is recorded. -/
def upsample_nearest2d_cmds (OW OH C : Nat) : List Cmd :=
  [.barrierShaderRead 1, .dispatch OW OH C]

/-- `adaptive_avg_pool2d` recording: input shader-read barrier, then the
dispatch.  No barrier on the output image is recorded. -/
def adaptive_avg_pool2d_cmds (OW OH C : Nat) : List Cmd :=
  [.barrierShaderRead 1, .dispatch OW OH C]

/-- `max_pool2d` recording: input shader-read barrier, then the dispatch.
No barrier on the output image is recorded. -/
def max_pool2d_cmds (oW oH c : Nat) : List Cmd :=
  [.barrierShaderRead 1, .dispatch oW oH c]

/-- Tensor+tensor `add` recording: output general barrier, both input
shader-read barriers, dispatch over `(W, H, C)`. -/
def add_cmds (W H C : Nat) : List Cmd :=
  [.barrierGeneral 0, .barrierShaderRead 1, .barrierShaderRead 2,
   .dispatch W H C]

/-- Scalar `add` recording. -/
def add_scalar_cmds (W H C : Nat) : List Cmd :=
  [.barrierGeneral 0, .barrierShaderRead 1, .dispatch W H C]

/-- Scalar `mul` recording. -/
def mul_scalar_cmds (W H C : Nat) : List Cmd :=
  [.barrierGeneral 0, .barrierShaderRead 1, .dispatch W H C]

/-- `conv2d_depthwise` recording: output general barrier, input and weight
shader-read barriers, dispatch over `(OW, OH, OC_4)`. -/
def conv2d_depthwise_cmds (OW OH OC_4 : Nat) : List Cmd :=
  [.barrierGeneral 0, .barrierShaderRead 1, .barrierShaderRead 2,
   .dispatch OW OH OC_4]

/-- Non-group `conv2d` recording: output general barrier, input and kernel
shader-read barriers, dispatch over
`(UP_DIV(OW, 4*wg.x), UP_DIV(OH, wg.y), UP_DIV(OC_4, wg.z))` with the work
group `{1, 1, OC_4}`. -/
def conv2d_nogroup_cmds (OW OH OC_4 : Nat) : List Cmd :=
  [.barrierGeneral 0, .barrierShaderRead 1, .barrierShaderRead 2,
   .dispatch (UP_DIV OW (4 * 1)) (UP_DIV OH 1) (UP_DIV OC_4 OC_4)]

/-- `conv2d_prepack_weights_to_image` recording: image general barrier,
kernel-buffer barrier, host-write-to-shader-read memory barrier, dispatch
over `(C_4, OC_4, KH*KW)`. -/
def conv2d_prepack_cmds (C_4 OC_4 KHxKW : Nat) : List Cmd :=
  [.barrierGeneral 0, .barrierBuffer 1, .memoryBarrier,
   .dispatch C_4 OC_4 KHxKW]

/-- `clamp` recording. -/
def clamp_cmds (W H C : Nat) : List Cmd :=
  [.barrierGeneral 0, .barrierShaderRead 1, .dispatch W H C]

/-- `addmm` recording when the additive `t` term is present.  Arguments are
numbered `0 = output`, `1 = t`, `2 = m1`, `3 = m2`; the source records the
barriers in order output, m1, m2, t. -/
def addmm_cmds_with_t (OW OH C_4 : Nat) : List Cmd :=
  [.barrierGeneral 0, .barrierShaderRead 2, .barrierShaderRead 3,
   .barrierShaderRead 1, .dispatch OW OH C_4]

/-- `addmm` recording without `t` (the `mm` shader): barriers on output, m1,
m2 (numbered 2 and 3 as above), then the dispatch. -/
def addmm_cmds_no_t (OW OH C_4 : Nat) : List Cmd :=
  [.barrierGeneral 0, .barrierShaderRead 2, .barrierShaderRead 3,
   .dispatch OW OH C_4]

/-- `mean` recording: output general barrier, input shader-read barrier,
dispatch over `(1, 1, UP_DIV(N*C, 4))`. -/
def mean_cmds (C_4 : Nat) : List Cmd :=
  [.barrierGeneral 0, .barrierShaderRead 1, .dispatch 1 1 C_4]

/-! ## Descriptor binding orders -/

/-- Kind of resource bound at a descriptor-set slot.  `inputImage i` /
`inputBuffer i` mark the operator's `i`-th input (in argument order). -/
inductive BindKind where
  | outputImage
  | inputImage (arg : Nat)
  | inputBuffer (arg : Nat)
  | biasBuffer
  | constBlock
deriving DecidableEq, Repr

/-- The binding layout the spec claims for every operator: output at slot 0,
then the inputs in argument order, then `nAux` auxiliary (bias) buffers, then
the constant block at the last slot. -/
def bindingContract (l : List BindKind) (ins : List BindKind) (nAux : Nat) :
    Bool :=
  l == [BindKind.outputImage] ++ ins
        ++ List.replicate nAux BindKind.biasBuffer ++ [BindKind.constBlock]

/-- `upsample_nearest2d` bindings (slot = list position). -/
def upsample_nearest2d_bindings : List BindKind :=
  [.outputImage, .inputImage 0, .constBlock]

/-- `adaptive_avg_pool2d` bindings. -/
def adaptive_avg_pool2d_bindings : List BindKind :=
  [.outputImage, .inputImage 0, .constBlock]

/-- `max_pool2d` bindings. -/
def max_pool2d_bindings : List BindKind :=
  [.outputImage, .inputImage 0, .constBlock]

/-- Tensor+tensor `add` bindings. -/
def add_bindings : List BindKind :=
  [.outputImage, .inputImage 0, .inputImage 1, .constBlock]

/-- Scalar `add` bindings. -/
def add_scalar_bindings : List BindKind :=
  [.outputImage, .inputImage 0, .constBlock]

/-- Scalar `mul` bindings. -/
def mul_scalar_bindings : List BindKind :=
  [.outputImage, .inputImage 0, .constBlock]

/-- `conv2d_depthwise` bindings: output, input, weight, bias, constants. -/
def conv2d_depthwise_bindings : List BindKind :=
  [.outputImage, .inputImage 0, .inputImage 1, .biasBuffer, .constBlock]

/-- Non-group `conv2d` bindings: output, input, kernel image, bias,
constants. -/
def conv2d_nogroup_bindings : List BindKind :=
  [.outputImage, .inputImage 0, .inputImage 1, .biasBuffer, .constBlock]

/-- `conv2d_prepack_weights_to_image` bindings: output image, repacked
kernel staging buffer, constants. -/
def conv2d_prepack_bindings : List BindKind :=
  [.outputImage, .inputBuffer 0, .constBlock]

/-- `clamp` bindings. -/
def clamp_bindings : List BindKind :=
  [.outputImage, .inputImage 0, .constBlock]

/-- `mean` bindings. -/
def mean_bindings : List BindKind :=
  [.outputImage, .inputImage 0, .constBlock]

/-- `addmm` bindings.  Inputs in argument order are `t` (arg 0, when
present), `m1` (arg 1), `m2` (arg 2).  With `t` present the source binds
output, m1, m2, the constant block, and then `t` at the final slot 4; without
`t` the present inputs are m1 (arg 0) and m2 (arg 1). -/
def addmm_bindings (hasT : Bool) : List BindKind :=
  if hasT then
    [.outputImage, .inputImage 1, .inputImage 2, .constBlock, .inputImage 0]
  else
    [.outputImage, .inputImage 0, .inputImage 1, .constBlock]

/-! ## conv2d entry points and group-count handling -/

/-- The fields of `Conv2DParams` consumed by the conv2d entry points of
`VulkanOps.cpp`.  Modelled from the spec: the struct lives in
`VulkanCommon.h`, which is not among the sources; the spec (§3 "Convolution
Parameters") lists group count, channel counts and output spatial sizes. -/
structure Conv2DParams where
  G : Nat
  C : Nat
  OC : Nat
  OH : Nat
  OW : Nat
  OC_4 : Nat
deriving DecidableEq, Repr

/-- `conv2d_depthwise` (inner overload taking the weight image and bias
buffer): asserts `params.G == params.C`, then the output spatial sizes, then
records its command buffer. -/
def conv2d_depthwise_run (p : Conv2DParams) (osizes : List Nat) :
    Except String (List Cmd) :=
  if p.G = p.C then
    if osizes.getD 2 0 = p.OH then
      if osizes.getD 3 0 = p.OW then
        .ok (conv2d_depthwise_cmds p.OW p.OH p.OC_4)
      else .error "INTERNAL ASSERT FAILED osizes[3] == params.OW"
    else .error "INTERNAL ASSERT FAILED osizes[2] == params.OH"
  else .error "INTERNAL ASSERT FAILED params.G == params.C"

/-- `conv2d` with a prepacked kernel `VImage` (inner overload): asserts
`params.G == 1` and the output spatial sizes, then records its command
buffer. -/
def conv2d_nogroup_run (p : Conv2DParams) (osizes : List Nat) :
    Except String (List Cmd) :=
  if p.G = 1 then
    if osizes.getD 2 0 = p.OH then
      if osizes.getD 3 0 = p.OW then
        .ok (conv2d_nogroup_cmds p.OW p.OH p.OC_4)
      else .error "Output tensor dims do not match specified conv2d params"
    else .error "Output tensor dims do not match specified conv2d params"
  else .error "Prepacked kernel VImage for non-group conv2d only"

/-- Prepacked-weight `conv2d` entry point (optional host-pointer bias
overload): `G > 1` routes to `conv2d_depthwise`, otherwise to the prepacked
`VImage` path. -/
def conv2d_prepacked_run (p : Conv2DParams) (osizes : List Nat) :
    Except String (List Cmd) :=
  if 1 < p.G then conv2d_depthwise_run p osizes
  else conv2d_nogroup_run p osizes

/-- Prepacked-weight `conv2d` entry point with a `VulkanTensor` bias: the
same routing as the optional-bias overload. -/
def conv2d_prepacked_tensor_bias_run (p : Conv2DParams) (osizes : List Nat) :
    Except String (List Cmd) :=
  if 1 < p.G then conv2d_depthwise_run p osizes
  else conv2d_nogroup_run p osizes

/-- Bare-pointer `conv2d` entry point: for `G > 1` first asserts
`params.G == params.C` ("Vulkan conv2d supports only no-group and
depthwise") and then takes the depthwise path; otherwise it prepacks the
weights and takes the `VImage` path. -/
def conv2d_ptr_run (p : Conv2DParams) (osizes : List Nat) :
    Except String (List Cmd) :=
  if 1 < p.G then
    if p.G = p.C then conv2d_depthwise_run p osizes
    else .error "Vulkan conv2d supports only no-group and depthwise"
  else conv2d_nogroup_run p osizes

/-! ## Tensor+tensor add shape checks -/

/-- Left-pad a shape to 4 dimensions with 1s, as `add` builds
`std::array<int64_t, 4> s4 = {1, 1, 1, 1}` and copies the sizes into its
last `dim` slots. -/
def leftPad4 (s : List Nat) : List Nat := List.replicate (4 - s.length) 1 ++ s

/-- Tensor+tensor `add`: asserts each operand's rank is at most 4, left-pads
all three shapes to rank 4 with 1s, asserts the padded shapes are exactly
equal, then records its command buffer with `C = os4[0]*os4[1]`,
`H = os4[2]`, `W = os4[3]`. -/
def add_tensor_run (os i0s i1s : List Nat) : Except String (List Cmd) :=
  if 4 < os.length then
    .error "Vulkan add is implemented for dim <= 4, output dim > 4"
  else if 4 < i0s.length then
    .error "Vulkan add is implemented for dim <= 4, input0 dim > 4"
  else if 4 < i1s.length then
    .error "Vulkan add is implemented for dim <= 4, input1 dim > 4"
  else if leftPad4 os = leftPad4 i0s ∧ leftPad4 i0s = leftPad4 i1s then
    .ok (add_cmds ((leftPad4 os).getD 3 1) ((leftPad4 os).getD 2 1)
          ((leftPad4 os).getD 0 1 * (leftPad4 os).getD 1 1))
  else .error "Vulkan add expects the same dimensions for all operands"

/-! ## reshape_copy -/

/-- A Vulkan tensor as seen by the buffer-copy operators: its logical sizes
and its buffer contents (one entry per element; the pass only copies, so
values are modelled as integers). -/
structure VulkanTensorModel where
  sizes : List Nat
  buffer : List Int
deriving DecidableEq, Repr

/-- Element count: the product of the logical sizes (empty product 1, as
`std::accumulate` with initial value 1). -/
def VulkanTensorModel.numel (t : VulkanTensorModel) : Nat := t.sizes.prod

/-- `reshape_copy`: asserts `product(shape) == input.numel()`,
resynchronizes the source to buffer form, allocates fresh storage for the new
shape and performs one full-tensor buffer-to-buffer copy. -/
def reshape_copy (input : VulkanTensorModel) (shape : List Nat) :
    Except String VulkanTensorModel :=
  if shape.prod = input.numel then .ok ⟨shape, input.buffer⟩
  else .error
    "reshape_copy expects shape with equal number of elements with input Vulkan tensor"

/-! ## cat -/

/-- One step of `cat`'s loop body, as observable effects. -/
inductive CatEvent where
  | syncImageToBuffer (arg : Nat)
  | copyBufferToBuffer (arg byteOffset sizeBytes : Nat)
deriving DecidableEq, Repr

/-- The event sequence of `cat`: for each input in order, a
resynchronization to buffer form followed by one device-side
buffer-to-buffer copy of `sizeof(float) * numel` bytes at the running output
byte offset.  The `dim` argument is accepted and never read, as in the
source. -/
def cat_events (inputs : List (List Int)) (dim : Int) : List CatEvent :=
  (inputs.foldl
    (fun (acc : List CatEvent × Nat × Nat) inp =>
      (acc.1 ++ [CatEvent.syncImageToBuffer acc.2.1,
                 CatEvent.copyBufferToBuffer acc.2.1 acc.2.2 (4 * inp.length)],
       acc.2.1 + 1, acc.2.2 + 4 * inp.length))
    ([], 0, 0)).1

/-- The output buffer contents after `cat`, at element granularity (element
`j` occupies the 4 bytes at byte offset `4 * j`): each input's elements
overwrite the output at the running element offset; positions past the
copied ranges keep the output buffer's previous contents.  The `dim`
argument is accepted and never read, as in the source. -/
def cat_buffer (out : Nat → Int) (inputs : List (List Int)) (dim : Int) :
    Nat → Int :=
  (inputs.foldl
    (fun (acc : (Nat → Int) × Nat) inp =>
      ((fun j => if acc.2 ≤ j ∧ j < acc.2 + inp.length
                 then inp.getD (j - acc.2) 0 else acc.1 j),
       acc.2 + inp.length))
    (out, 0)).1

/-! ## Scalar add / mul size extraction -/

/-- The `(C, H, W)` extraction of scalar `add`:
`C = accumulate(sizes.cbegin(), sizes.cend() - 2, 1, multiplies)`,
`H = sizes[2]`, `W = sizes[3]`.  `none` models undefined behaviour: the
iterator range is invalid for fewer than 2 sizes, and the unchecked
`sizes[2]` / `sizes[3]` reads are out of bounds for fewer than 4. -/
def add_scalar_CHW (sizes : List Nat) : Option (Nat × Nat × Nat) :=
  if sizes.length < 2 then none
  else
    match sizes[2]?, sizes[3]? with
    | some h, some w => some ((sizes.take (sizes.length - 2)).prod, h, w)
    | _, _ => none

/-- The `(C, H, W)` extraction of scalar `mul`, textually identical to the
one in scalar `add`. -/
def mul_scalar_CHW (sizes : List Nat) : Option (Nat × Nat × Nat) :=
  if sizes.length < 2 then none
  else
    match sizes[2]?, sizes[3]? with
    | some h, some w => some ((sizes.take (sizes.length - 2)).prod, h, w)
    | _, _ => none

/-! ## Theorems for the remaining claims -/

/-- C2 counterexample: for `OC = C = KH = KW = 1` the source computes the
image size `(ALIGN_UP4(1), UP_DIV(1,4), 1) = (4, 1, 1)`, not the
`(ceil(1/4), ceil(1/4), 1) = (1, 1, 1)` the claim states, and handing the
claimed size to `conv2d_prepack_weights_to_image` fails the assertion. -/
theorem conv2d_prepack_image_sizes_counterexample :
    conv2d_prepack_weights_image_sizes 1 1 1 1 = [4, 1, 1]
    ∧ specPrepackImageSizes 1 1 1 1 = [1, 1, 1]
    ∧ (conv2d_prepack_weights_image_sizes 1 1 1 1
        == specPrepackImageSizes 1 1 1 1) = false
    ∧ (conv2d_prepack_weights_to_image_check
        (specPrepackImageSizes 1 1 1 1) 1 1 1 1).isOk = false := by
  decide

/-- C2 amended: for every `OC, C, KH, KW`, the prepacked convolution weight
image has size `(ALIGN_UP4(C), ceil(OC/4), KH*KW)` (i.e. `4 * ceil(C/4)` in
the first coordinate), and `conv2d_prepack_weights_to_image` succeeds on a
pre-allocated image exactly when its size equals this triple, failing the
hard assertion on any other size. -/
theorem conv2d_prepack_image_sizes_contract
    (OC C KH KW : Nat) (s : List Nat) :
    conv2d_prepack_weights_image_sizes OC C KH KW
      = [4 * UP_DIV C 4, UP_DIV OC 4, KH * KW]
    ∧ ((conv2d_prepack_weights_to_image_check s OC C KH KW).isOk = true
        ↔ s = [4 * UP_DIV C 4, UP_DIV OC 4, KH * KW]) := by
  have hs : conv2d_prepack_weights_image_sizes OC C KH KW
      = [4 * UP_DIV C 4, UP_DIV OC 4, KH * KW] := by
    unfold conv2d_prepack_weights_image_sizes ALIGN_UP4
    rw [Nat.mul_comm]
  refine ⟨hs, ?_⟩
  unfold conv2d_prepack_weights_to_image_check
  rw [hs]
  split_ifs with h
  · simp [h, Except.isOk, Except.toBool]
  · simp [h, Except.isOk, Except.toBool]

/-- C3: the claim states every operator entry point records, before its
dispatch, a general-access barrier on the output image and shader-read
barriers on all inputs.  The code violates this for `upsample_nearest2d`,
`adaptive_avg_pool2d` and `max_pool2d`, which record only the input
shader-read barrier and no output barrier at all, while `add` (both forms),
`mul`, `conv2d`, `conv2d_depthwise`, `clamp`, `addmm`/`mm` and `mean` do
record the full barrier set before dispatching. -/
theorem barrier_before_dispatch_audit :
    barriersPrecedeDispatch (upsample_nearest2d_cmds 4 4 2) 0 [1] = false
    ∧ (upsample_nearest2d_cmds 4 4 2).contains (Cmd.barrierGeneral 0) = false
    ∧ (upsample_nearest2d_cmds 4 4 2).any Cmd.isDispatch = true
    ∧ (cmdsBeforeDispatch
        (upsample_nearest2d_cmds 4 4 2)).contains (Cmd.barrierShaderRead 1)
        = true
    ∧ barriersPrecedeDispatch (adaptive_avg_pool2d_cmds 2 2 2) 0 [1] = false
    ∧ barriersPrecedeDispatch (max_pool2d_cmds 2 2 2) 0 [1] = false
    ∧ barriersPrecedeDispatch (add_cmds 2 2 2) 0 [1, 2] = true
    ∧ barriersPrecedeDispatch (add_scalar_cmds 2 2 2) 0 [1] = true
    ∧ barriersPrecedeDispatch (mul_scalar_cmds 2 2 2) 0 [1] = true
    ∧ barriersPrecedeDispatch (conv2d_depthwise_cmds 2 2 1) 0 [1, 2] = true
    ∧ barriersPrecedeDispatch (conv2d_nogroup_cmds 2 2 1) 0 [1, 2] = true
    ∧ barriersPrecedeDispatch (clamp_cmds 2 2 2) 0 [1] = true
    ∧ barriersPrecedeDispatch (addmm_cmds_with_t 2 2 1) 0 [1, 2, 3] = true
    ∧ barriersPrecedeDispatch (addmm_cmds_no_t 2 2 1) 0 [2, 3] = true
    ∧ barriersPrecedeDispatch (mean_cmds 1) 0 [1] = true := by
  decide

/-- C4 counterexample: in `addmm` with the additive `t` term, the constant
block is bound at slot 3 and the input `t` at the final slot 4, so the
packed constant block is not at the last index and the inputs are not
contiguous after the output. -/
theorem addmm_binding_counterexample :
    addmm_bindings true
      = [BindKind.outputImage, BindKind.inputImage 1, BindKind.inputImage 2,
         BindKind.constBlock, BindKind.inputImage 0]
    ∧ (addmm_bindings true).getLast? = some (BindKind.inputImage 0)
    ∧ bindingContract (addmm_bindings true)
        [BindKind.inputImage 0, BindKind.inputImage 1, BindKind.inputImage 2]
        0 = false
    ∧ bindingContract (addmm_bindings true)
        [BindKind.inputImage 1, BindKind.inputImage 2, BindKind.inputImage 0]
        0 = false := by
  decide

/-- C4 amended: every operator's descriptor set binds the output at index 0,
then the inputs in argument order, then auxiliary buffers (bias), with the
packed constant block at the last index — except `addmm` with the additive
`t` term, which binds output, `m1`, `m2`, the constant block, and then `t`
at the final index. -/
theorem binding_order_contract :
    bindingContract upsample_nearest2d_bindings [BindKind.inputImage 0] 0 = true
    ∧ bindingContract adaptive_avg_pool2d_bindings [BindKind.inputImage 0] 0
        = true
    ∧ bindingContract max_pool2d_bindings [BindKind.inputImage 0] 0 = true
    ∧ bindingContract add_bindings
        [BindKind.inputImage 0, BindKind.inputImage 1] 0 = true
    ∧ bindingContract add_scalar_bindings [BindKind.inputImage 0] 0 = true
    ∧ bindingContract mul_scalar_bindings [BindKind.inputImage 0] 0 = true
    ∧ bindingContract conv2d_depthwise_bindings
        [BindKind.inputImage 0, BindKind.inputImage 1] 1 = true
    ∧ bindingContract conv2d_nogroup_bindings
        [BindKind.inputImage 0, BindKind.inputImage 1] 1 = true
    ∧ bindingContract conv2d_prepack_bindings [BindKind.inputBuffer 0] 0 = true
    ∧ bindingContract clamp_bindings [BindKind.inputImage 0] 0 = true
    ∧ bindingContract mean_bindings [BindKind.inputImage 0] 0 = true
    ∧ bindingContract (addmm_bindings false)
        [BindKind.inputImage 0, BindKind.inputImage 1] 0 = true
    ∧ addmm_bindings true
      = [BindKind.outputImage, BindKind.inputImage 1, BindKind.inputImage 2,
         BindKind.constBlock, BindKind.inputImage 0] := by
  decide

/-- C5: every conv2d entry point called with a group count `1 < G < C` fails
fast (the bare-pointer path through its own `G == C` assertion, the two
prepacked paths through `conv2d_depthwise`'s `G == C` assertion) and never
records a dispatch. -/
theorem conv2d_group_count_fail_fast
    (p : Conv2DParams) (osizes : List Nat)
    (h1 : 1 < p.G) (h2 : p.G < p.C) :
    (conv2d_ptr_run p osizes).isOk = false
    ∧ (conv2d_prepacked_run p osizes).isOk = false
    ∧ (conv2d_prepacked_tensor_bias_run p osizes).isOk = false := by
  have hne : p.G ≠ p.C := Nat.ne_of_lt h2
  unfold conv2d_ptr_run conv2d_prepacked_run conv2d_prepacked_tensor_bias_run
    conv2d_depthwise_run
  simp [h1, hne, Except.isOk, Except.toBool]

/-- Witness for C5 at `G = 2`, `C = 4`. -/
theorem conv2d_group_count_fail_fast_witness :
    (1 < 2 ∧ 2 < 4)
    ∧ ((conv2d_ptr_run ⟨2, 4, 4, 3, 3, 1⟩ [1, 4, 3, 3]).isOk = false
    ∧ (conv2d_prepacked_run ⟨2, 4, 4, 3, 3, 1⟩ [1, 4, 3, 3]).isOk = false
    ∧ (conv2d_prepacked_tensor_bias_run ⟨2, 4, 4, 3, 3, 1⟩
        [1, 4, 3, 3]).isOk = false) :=
  ⟨by decide,
   conv2d_group_count_fail_fast ⟨2, 4, 4, 3, 3, 1⟩ [1, 4, 3, 3]
     (by decide) (by decide)⟩

/-- C6: tensor+tensor `add` succeeds exactly when the output and both inputs
have at most 4 dimensions each and the three shapes, left-padded to 4
dimensions with 1s, are exactly equal; any mismatch after padding (and any
rank above 4) is a fatal assertion failure, and no broadcasting beyond this
padding is performed. -/
theorem add_shape_check (os i0s i1s : List Nat) :
    (add_tensor_run os i0s i1s).isOk = true
      ↔ (os.length ≤ 4 ∧ i0s.length ≤ 4 ∧ i1s.length ≤ 4
          ∧ leftPad4 os = leftPad4 i0s ∧ leftPad4 i0s = leftPad4 i1s) := by
  unfold add_tensor_run
  split_ifs with h1 h2 h3 h4
  · simp [Except.isOk, Except.toBool]
    omega
  · simp [Except.isOk, Except.toBool]
    omega
  · simp [Except.isOk, Except.toBool]
    omega
  · simp [Except.isOk, Except.toBool]
    exact ⟨by omega, by omega, by omega, h4.1, h4.2⟩
  · simp [Except.isOk, Except.toBool]
    intro _ _ _ h5 h6
    exact h4 ⟨h5, h6⟩

/-- C7: `reshape_copy` asserts `product(shape) == numel`, succeeds with a
full buffer copy into fresh storage of the requested shape, fails on any
element-count mismatch, and reshaping back to the original shape yields the
original tensor (element sequence bit-for-bit). -/
theorem reshape_copy_roundtrip (t : VulkanTensorModel) (shape : List Nat)
    (h : shape.prod = t.numel) :
    reshape_copy t shape = .ok ⟨shape, t.buffer⟩
    ∧ ((reshape_copy t shape).bind fun u => reshape_copy u t.sizes) = .ok t
    ∧ (∀ s2 : List Nat, s2.prod ≠ t.numel →
        (reshape_copy t s2).isOk = false) := by
  have hfwd : reshape_copy t shape = .ok ⟨shape, t.buffer⟩ := by
    unfold reshape_copy
    rw [if_pos h]
  refine ⟨hfwd, ?_, ?_⟩
  · rw [hfwd]
    show reshape_copy ⟨shape, t.buffer⟩ t.sizes = .ok t
    unfold reshape_copy
    have hc : t.sizes.prod = VulkanTensorModel.numel ⟨shape, t.buffer⟩ := by
      simp only [VulkanTensorModel.numel] at h ⊢
      exact h.symm
    rw [if_pos hc]
  · intro s2 h2
    unfold reshape_copy
    rw [if_neg h2]
    rfl

/-- Witness for C7: reshape a `[2, 3]` tensor to `[3, 2]` and back. -/
theorem reshape_copy_roundtrip_witness :
    ([3, 2] : List Nat).prod = VulkanTensorModel.numel ⟨[2, 3], [10, 11, 12, 13, 14, 15]⟩
    ∧ (reshape_copy ⟨[2, 3], [10, 11, 12, 13, 14, 15]⟩ [3, 2]
        = .ok ⟨[3, 2], [10, 11, 12, 13, 14, 15]⟩
    ∧ ((reshape_copy ⟨[2, 3], [10, 11, 12, 13, 14, 15]⟩ [3, 2]).bind fun u =>
        reshape_copy u ([2, 3] : List Nat))
        = .ok ⟨[2, 3], [10, 11, 12, 13, 14, 15]⟩
    ∧ (∀ s2 : List Nat, s2.prod ≠ VulkanTensorModel.numel ⟨[2, 3], [10, 11, 12, 13, 14, 15]⟩ →
        (reshape_copy ⟨[2, 3], [10, 11, 12, 13, 14, 15]⟩ s2).isOk = false)) :=
  ⟨by decide,
   reshape_copy_roundtrip ⟨[2, 3], [10, 11, 12, 13, 14, 15]⟩ [3, 2] (by decide)⟩

/-- C8: `cat` resynchronizes each input to buffer form and then issues one
device-side buffer-to-buffer copy per input at strictly increasing byte
offsets, each offset advanced by `sizeof(float) * numel` of the preceding
input; for inputs `a` then `b` the output's first `|a|` elements (byte range
`[0, 4*|a|)`) equal `a`'s data, the next `|b|` elements (byte range
`[4*|a|, 4*|a| + 4*|b|)`) equal `b`'s data, and later elements keep the
output buffer's previous contents. -/
theorem cat_two_inputs (out : Nat → Int) (a b : List Int) (d : Int) (j : Nat) :
    cat_events [a, b] d
      = [CatEvent.syncImageToBuffer 0,
         CatEvent.copyBufferToBuffer 0 0 (4 * a.length),
         CatEvent.syncImageToBuffer 1,
         CatEvent.copyBufferToBuffer 1 (4 * a.length) (4 * b.length)]
    ∧ (j < a.length → cat_buffer out [a, b] d j = a.getD j 0)
    ∧ (a.length ≤ j → j < a.length + b.length →
        cat_buffer out [a, b] d j = b.getD (j - a.length) 0)
    ∧ (a.length + b.length ≤ j → cat_buffer out [a, b] d j = out j) := by
  refine ⟨?_, ?_, ?_, ?_⟩
  · simp [cat_events]
  · intro hj
    simp only [cat_buffer, List.foldl]
    rw [if_neg (by omega), if_pos (by omega)]
    simp
  · intro hj1 hj2
    simp only [cat_buffer, List.foldl]
    rw [if_pos ⟨by omega, by omega⟩]
    simp
  · intro hj
    simp only [cat_buffer, List.foldl]
    rw [if_neg (by omega), if_neg (by omega)]

/-- Witness for C8 with `a = [1, 2, 3]`, `b = [4, 5]` over a buffer
previously holding `99` everywhere. -/
theorem cat_two_inputs_witness :
    cat_buffer (fun _ => 99) [[1, 2, 3], [4, 5]] 0 1 = 2
    ∧ cat_buffer (fun _ => 99) [[1, 2, 3], [4, 5]] 0 4 = 5
    ∧ cat_buffer (fun _ => 99) [[1, 2, 3], [4, 5]] 0 7 = 99
    ∧ cat_events [[1, 2, 3], [4, 5]] 0
      = [CatEvent.syncImageToBuffer 0, CatEvent.copyBufferToBuffer 0 0 12,
         CatEvent.syncImageToBuffer 1, CatEvent.copyBufferToBuffer 1 12 8] := by
  refine ⟨?_, ?_, ?_, ?_⟩
  · exact ((cat_two_inputs (fun _ => 99) [1, 2, 3] [4, 5] 0 1).2.1
      (by decide)).trans (by decide)
  · exact ((cat_two_inputs (fun _ => 99) [1, 2, 3] [4, 5] 0 4).2.2.1
      (by decide) (by decide)).trans (by decide)
  · exact ((cat_two_inputs (fun _ => 99) [1, 2, 3] [4, 5] 0 7).2.2.2
      (by decide)).trans rfl
  · exact ((cat_two_inputs (fun _ => 99) [1, 2, 3] [4, 5] 0 0).1).trans
      (by decide)

/-- C9: `cat`'s result is independent of its `dim` argument: the parameter
is accepted and never read, so any two calls differing only in `dim` record
exactly the same copy sequence and produce the identical output buffer, and
no validation or rejection of a concatenation axis ever happens (the model,
like the source, has no failure path at all). -/
theorem cat_ignores_dim (out : Nat → Int) (inputs : List (List Int))
    (d1 d2 : Int) :
    cat_buffer out inputs d1 = cat_buffer out inputs d2
    ∧ cat_events inputs d1 = cat_events inputs d2 :=
  ⟨rfl, rfl⟩

/-- C10: scalar `add` and scalar `mul` share the identical size extraction:
it reads `sizes[2]` and `sizes[3]` unconditionally and folds every leading
dimension except the last two into the channel count; it performs no rank
padding and no rank check, it is in-bounds exactly for ranks at least 4
(out of bounds below 4), and only at rank exactly 4 do the indices `2, 3` it
reads coincide with the tensor's last two dimensions. -/
theorem scalar_add_mul_size_extraction (sizes : List Nat) :
    add_scalar_CHW sizes = mul_scalar_CHW sizes
    ∧ ((add_scalar_CHW sizes).isSome ↔ 4 ≤ sizes.length)
    ∧ (4 ≤ sizes.length →
        add_scalar_CHW sizes
          = some ((sizes.take (sizes.length - 2)).prod,
              sizes.getD 2 0, sizes.getD 3 0))
    ∧ (sizes.length = 4 →
        add_scalar_CHW sizes
          = some (sizes.getD 0 1 * sizes.getD 1 1,
              sizes.getD 2 0, sizes.getD 3 0))
    ∧ ((2 = sizes.length - 2 ∧ 3 = sizes.length - 1) ↔ sizes.length = 4) := by
  rcases sizes with _ | ⟨a, _ | ⟨b, _ | ⟨c, _ | ⟨d, rest⟩⟩⟩⟩
  · exact ⟨rfl, by simp [add_scalar_CHW], by intro h; simp at h,
      by intro h; simp at h, by simp⟩
  · exact ⟨rfl, by simp [add_scalar_CHW], by intro h; simp at h,
      by intro h; simp at h, by simp⟩
  · exact ⟨rfl, by simp [add_scalar_CHW], by intro h; simp at h,
      by intro h; simp at h, by simp⟩
  · exact ⟨rfl, by simp [add_scalar_CHW], by intro h; simp at h,
      by intro h; simp at h, by simp⟩
  · refine ⟨rfl, by simp [add_scalar_CHW], ?_, ?_, by simp⟩
    · intro _
      simp [add_scalar_CHW]
    · intro h4
      have hrest : rest = [] := by
        simp at h4
        exact h4
      subst hrest
      simp [add_scalar_CHW]

/-- Witness for C10 at the rank-4 shape `[6, 7, 8, 9]` and the rank-2 shape
`[6, 7]`. -/
theorem scalar_add_mul_size_extraction_witness :
    (4 ≤ ([6, 7, 8, 9] : List Nat).length ∧ ([6, 7, 8, 9] : List Nat).length = 4)
    ∧ add_scalar_CHW [6, 7, 8, 9] = mul_scalar_CHW [6, 7, 8, 9]
    ∧ add_scalar_CHW [6, 7, 8, 9] = some (42, 8, 9)
    ∧ add_scalar_CHW [6, 7] = none := by
  refine ⟨by decide, (scalar_add_mul_size_extraction [6, 7, 8, 9]).1, ?_, ?_⟩
  · exact ((scalar_add_mul_size_extraction [6, 7, 8, 9]).2.2.2.1
      (by decide)).trans (by decide)
  · have h := (scalar_add_mul_size_extraction [6, 7]).2.1
    cases hv : add_scalar_CHW [6, 7] with
    | none => rfl
    | some v =>
      have : (4 : Nat) ≤ 2 := h.mp (by rw [hv]; rfl)
      omega

end VulkanOps
